import Mathlib

/-!
# Verification of the cleaning-service claim coordination core

Shallow embedding of `api/server.py` (the claim coordination core of the
cleaning_service repository) together with proofs of the specified
properties: the read cache (`Cache`), the idempotency guard
(`IdempotencyChecker.check`), order creation (`_create_order`), the
claim operation (`_verify_accept_order`), and the lifecycle operations
(`_complete_order`, `_cancel_order`, `_update_order`, `_delete_order`).

Conventions of the embedding:
* SQLite tables become association lists keyed by the integer row id;
  each SQL statement of the source is one atomic operation on them.
* `time.time()` becomes an explicit `now : Int` argument.
* Python dict request bodies become structures of `Option` fields;
  Python truthiness (`if not x`, `if data.get(f)`) is modelled by the
  `truthy` helpers (`None`, `0` and `""` are falsy).
* A handler returns a dict: either `{"error": msg, "code": c}` or a
  success payload without an `"error"` key; `APIHandler._handle_request`
  sends HTTP 200 for the latter and `c` for the former.  This is the
  `Resp` type and its `httpCode` projection.
* The `order_locks` table is used by `_verify_accept_order` but its
  schema is not part of the given sources; its set semantics (atomic
  insert-or-ignore keyed by `order_id`) is modelled from the spec,
  see `ClaimShared` and the lock operations below.
-/

namespace CleaningService

/-! ## Association-list primitives (rows of a SQLite table keyed by id) -/

/-- `SELECT ... WHERE id = k LIMIT 1`: first value bound to key `k`. -/
def alookup {κ β : Type} [DecidableEq κ] (k : κ) : List (κ × β) → Option β
  | [] => none
  | (k', v) :: rest => if k' = k then some v else alookup k rest

/-- `INSERT OR REPLACE`-style write used by the in-memory dictionaries
(`Cache._cache[key] = ...`, `IdempotencyChecker._keys[key] = ...`). -/
def aset {κ β : Type} [DecidableEq κ] (k : κ) (v : β) : List (κ × β) → List (κ × β)
  | [] => [(k, v)]
  | (k', v') :: rest => if k' = k then (k, v) :: rest else (k', v') :: aset k v rest

/-- `UPDATE ... WHERE id = k`: apply `f` to every row keyed `k`
(the orders table has `id` as primary key, so at most one row). -/
def aupdate {κ β : Type} [DecidableEq κ] (k : κ) (f : β → β) : List (κ × β) → List (κ × β)
  | [] => []
  | (k', v') :: rest =>
      if k' = k then (k', f v') :: aupdate k f rest else (k', v') :: aupdate k f rest

/-- `DELETE ... WHERE id = k` / `del dict[key]`. -/
def aerase {κ β : Type} [DecidableEq κ] (k : κ) (l : List (κ × β)) : List (κ × β) :=
  l.filter (fun p => p.1 ≠ k)

theorem alookup_aset_self {κ β : Type} [DecidableEq κ] (k : κ) (v : β) (l : List (κ × β)) :
    alookup k (aset k v l) = some v := by
  induction l with
  | nil => simp [aset, alookup]
  | cons p rest ih =>
      by_cases h : p.1 = k
      · simp [aset, h, alookup]
      · simp [aset, h, alookup, ih]

theorem alookup_aset_ne {κ β : Type} [DecidableEq κ] (k k' : κ) (v : β) (l : List (κ × β))
    (h : k' ≠ k) : alookup k' (aset k v l) = alookup k' l := by
  induction l with
  | nil => simp [aset, alookup, Ne.symm h]
  | cons p rest ih =>
      by_cases hp : p.1 = k
      · subst hp
        simp [aset, alookup, Ne.symm h]
      · simp only [aset, if_neg hp]
        by_cases hp' : p.1 = k'
        · simp [alookup, hp']
        · simp [alookup, hp', ih]

theorem alookup_aupdate_self {κ β : Type} [DecidableEq κ] (k : κ) (f : β → β)
    (l : List (κ × β)) : alookup k (aupdate k f l) = (alookup k l).map f := by
  induction l with
  | nil => simp [aupdate, alookup]
  | cons p rest ih =>
      by_cases h : p.1 = k
      · simp [aupdate, h, alookup]
      · simp [aupdate, h, alookup, ih]

theorem alookup_aupdate_ne {κ β : Type} [DecidableEq κ] (k k' : κ) (f : β → β)
    (l : List (κ × β)) (h : k' ≠ k) : alookup k' (aupdate k f l) = alookup k' l := by
  induction l with
  | nil => simp [aupdate]
  | cons p rest ih =>
      by_cases hp : p.1 = k
      · simp [aupdate, hp, alookup, Ne.symm h, ih]
      · by_cases hp' : p.1 = k'
        · simp [aupdate, hp, alookup, hp', h]
        · simp [aupdate, hp, alookup, hp', ih]

/-- Membership in an updated table: every row either was there untouched
or is the image under `f` of a row keyed `k`. -/
theorem mem_aupdate {κ β : Type} [DecidableEq κ] {k : κ} {f : β → β}
    {l : List (κ × β)} {p : κ × β} (hp : p ∈ aupdate k f l) :
    p ∈ l ∨ ∃ q ∈ l, q.1 = k ∧ p = (q.1, f q.2) := by
  induction l with
  | nil => simp [aupdate] at hp
  | cons q rest ih =>
      by_cases h : q.1 = k
      · simp only [aupdate, if_pos h] at hp
        rcases List.mem_cons.mp hp with h1 | h1
        · exact Or.inr ⟨q, List.mem_cons_self q rest, h, h1⟩
        · rcases ih h1 with h2 | ⟨r, hr, hrk, hrp⟩
          · exact Or.inl (List.mem_cons_of_mem q h2)
          · exact Or.inr ⟨r, List.mem_cons_of_mem q hr, hrk, hrp⟩
      · simp only [aupdate, if_neg h] at hp
        rcases List.mem_cons.mp hp with h1 | h1
        · exact Or.inl (h1 ▸ List.mem_cons_self q rest)
        · rcases ih h1 with h2 | ⟨r, hr, hrk, hrp⟩
          · exact Or.inl (List.mem_cons_of_mem q h2)
          · exact Or.inr ⟨r, List.mem_cons_of_mem q hr, hrk, hrp⟩

/-! ## Read cache (`class Cache`, server.py lines 26-48) -/

/-- `Cache.__init__`: a dict from key to `(value, timestamp)` plus a TTL
(default 30 seconds in `CleaningAPI.__init__`). -/
structure Cache (α : Type) where
  entries : List (String × (α × Int))
  ttl : Int
  deriving DecidableEq, Repr

/-- The default TTL used by `CleaningAPI` (`Cache(ttl=30)`). -/
def cacheDefaultTTL : Int := 30

/-- `Cache.get`: returns the stored value while strictly less than `ttl`
seconds have elapsed since it was set; an expired entry is deleted and
treated as absent.  The returned state is the cache after the call. -/
def Cache.get {α : Type} (c : Cache α) (key : String) (now : Int) :
    Option α × Cache α :=
  match alookup key c.entries with
  | some (v, ts) =>
      if now - ts < c.ttl then (some v, c)
      else (none, { c with entries := aerase key c.entries })
  | none => (none, c)

/-- `Cache.set`: store `(value, time.time())` under `key`. -/
def Cache.set {α : Type} (c : Cache α) (key : String) (v : α) (now : Int) : Cache α :=
  { c with entries := aset key (v, now) c.entries }

/-- `Cache.invalidate`: drop one key. -/
def Cache.invalidate {α : Type} (c : Cache α) (key : String) : Cache α :=
  { c with entries := aerase key c.entries }

/-- `Cache.clear`: drop everything. -/
def Cache.clear {α : Type} (c : Cache α) : Cache α :=
  { c with entries := [] }

/-! ## Idempotency guard (`class IdempotencyChecker`, lines 91-109) -/

/-- The trailing window of `IdempotencyChecker` (`self._window = 60`). -/
def idemWindow : Int := 60

/-- `IdempotencyChecker.check`: returns `false` (duplicate) if the key
was seen strictly less than 60 seconds ago, otherwise records the key
with the current time and returns `true` ("first time seen, proceed").
The second component is the updated `_keys` map. -/
def idemCheck (keys : List (String × Int)) (key : String) (now : Int) :
    Bool × List (String × Int) :=
  match alookup key keys with
  | some t => if now - t < idemWindow then (false, keys) else (true, aset key now keys)
  | none => (true, aset key now keys)

/-! ## Data model: tables of `cleaning.db` used by the core -/

/-- One row of the `orders` table (models/cleaning.py plus the extra
columns written by server.py: `voice_url`, `text_notes`,
`completion_photos`, `accepted_by_host`).  `price` is modelled as an
integer; the claims never depend on fractional prices. -/
structure OrderRow where
  property_id : Nat
  host_name : String
  host_phone : String
  checkout_time : String
  price : Int
  status : String
  assigned_cleaner_id : Option Nat
  assigned_at : Option Int
  voice_url : Option String
  text_notes : Option String
  completion_photos : Option String
  accepted_by_host : Option String
  deriving DecidableEq, Repr

/-- The aggregate returned by `CleaningRepository.get_stats` and cached
under the `"stats"` key. -/
structure Stats where
  properties : Nat
  available_cleaners : Nat
  pending_jobs : Nat
  completed_today : Nat
  deriving DecidableEq, Repr

/-- The state a `CleaningAPI` instance operates on: the SQLite tables
touched by the order operations plus the in-process cache and
idempotency map.  Cleaners are reduced to `id ↦ code` (the only column
`_verify_accept_order` reads); properties to the set of existing ids
(only existence is checked by `_create_order`).  `order_locks` is the
lock table: its schema is not in the given sources, so, modelled from
the spec (§4.2, §9): a set of order ids with atomic insert-or-ignore
(`INSERT OR IGNORE` reports 0 rows when the id is already present) and
`DELETE ... WHERE order_id = ?` as release. -/
structure ServerState where
  orders : List (Nat × OrderRow)
  order_locks : List Nat
  cleaners : List (Nat × String)
  properties : List Nat
  cache : Cache Stats
  idem : List (String × Int)
  next_order_id : Nat
  deriving DecidableEq, Repr

/-- A handler result: success payload (no `"error"` key) or
`{"error": msg, "code": c}`. -/
inductive Resp where
  | ok (message : String)
  | err (msg : String) (code : Nat)
  deriving DecidableEq, Repr

/-- The HTTP status `APIHandler._handle_request` sends:
`200 if "error" not in result else result.get("code", 500)`. -/
def Resp.httpCode : Resp → Nat
  | .ok _ => 200
  | .err _ c => c

/-! ## Request bodies (Python dicts of optional fields) -/

/-- Python truthiness on an optional string: `None` and `""` are falsy. -/
def truthyS : Option String → Option String
  | some s => if s = "" then none else some s
  | none => none

/-- Python truthiness on an optional natural: `None` and `0` are falsy. -/
def truthyN : Option Nat → Option Nat
  | some n => if n = 0 then none else some n
  | none => none

/-- Python truthiness on an optional integer: `None` and `0` are falsy. -/
def truthyI : Option Int → Option Int
  | some i => if i = 0 then none else some i
  | none => none

/-- Body of `POST /api/orders` (`_create_order`). -/
structure CreateData where
  property_id : Option Nat
  checkout_time : Option String
  price : Option Int
  host_name : Option String
  host_phone : Option String
  voice_url : Option String
  text_notes : Option String
  idempotency_key : Option String
  deriving DecidableEq, Repr

/-- Body of `PUT /api/orders/<id>` (`_update_order`).  A doubly-optional
field distinguishes "key absent from the dict" (outer `none`) from
"key present with value `None`" (`some none`). -/
structure UpdateData where
  property_id : Option Nat
  checkout_time : Option String
  price : Option Int
  status : Option String
  cleaner_id : Option Nat
  voice_url : Option (Option String)
  text_notes : Option (Option String)
  completion_photos : Option (Option String)
  accepted_by_host : Option (Option String)
  deriving DecidableEq, Repr

/-! ## Operations of the core (methods of `CleaningAPI`) -/

/-- `Validator.validate_order`: `property_id` and `checkout_time` must
be truthy and `float(data.get("price", 0))` must be positive.  Returns
the error message, or `none` when valid. -/
def validate_order (d : CreateData) : Option String :=
  if truthyN d.property_id = none then some "房源ID不能為空"
  else if truthyS d.checkout_time = none then some "退房時間不能為空"
  else if d.price.getD 0 ≤ 0 then some "價格必須大於0"
  else none

/-- `_create_order` (lines 714-749): validate, optional idempotency
check (duplicate within the window → 409, and note the key is recorded
*before* the property-existence check), verify the property exists
(absent → 404), insert the new order row with status `"open"`, clear
the cache, return success. -/
def create_order (st : ServerState) (d : CreateData) (now : Int) : Resp × ServerState :=
  match validate_order d with
  | some e => (.err e 400, st)
  | none =>
    let afterIdem : Option (List (String × Int)) :=
      match truthyS d.idempotency_key with
      | some k =>
          let c := idemCheck st.idem k now
          if c.1 then some c.2 else none
      | none => some st.idem
    match afterIdem with
    | none => (.err "Duplicate request" 409, st)
    | some idem' =>
      let st1 := { st with idem := idem' }
      match d.property_id with
      | none => (.err "Property not found" 404, st1)
      | some p =>
        if p ∉ st1.properties then (.err "Property not found" 404, st1)
        else
          let row : OrderRow :=
            { property_id := p
              host_name := d.host_name.getD ""
              host_phone := d.host_phone.getD ""
              checkout_time := d.checkout_time.getD ""
              price := d.price.getD 100
              status := "open"
              assigned_cleaner_id := none
              assigned_at := none
              voice_url := d.voice_url
              text_notes := d.text_notes
              completion_photos := none
              accepted_by_host := none }
          (.ok "Order created",
           { st1 with
              orders := st1.orders ++ [(st1.next_order_id, row)]
              next_order_id := st1.next_order_id + 1
              cache := st1.cache.clear })

/-- `_verify_accept_order` (lines 751-844), the claim operation, run
sequentially (one call at a time; the interleaved version is the
`ClaimStep` system below).  Parameter check, credential check against
the `cleaners` table, lock acquisition on the `order_locks` table,
status check, conditional `open → accepted` update, post-write
verification, lock release, cache clear.  The string-parse failure of
`int(cleaner_id)` (also a 400) is elided: `cleaner_id` arrives already
numeric. -/
def verify_accept_order (st : ServerState) (order_id : Nat)
    (cleaner_id : Option Nat) (code : Option String) (now : Int) :
    Resp × ServerState :=
  match truthyN cleaner_id, truthyS code with
  | none, _ => (.err "cleaner_id and code required" 400, st)
  | _, none => (.err "cleaner_id and code required" 400, st)
  | some cid, some cd =>
    match alookup cid st.cleaners with
    | none => (.err "Cleaner not found" 404, st)
    | some stored =>
      if stored ≠ cd then (.err "Invalid code" 400, st)
      else if order_id ∈ st.order_locks then
        (.err "Order already being processed" 409, st)
      else
        let locks1 := order_id :: st.order_locks
        match alookup order_id st.orders with
        | none =>
            (.err "Order not found" 404,
             { st with order_locks := locks1.filter (fun x => x ≠ order_id) })
        | some row =>
          if row.status ≠ "open" then
            (.err ("Order already taken (status: " ++ row.status ++ ")") 409,
             { st with order_locks := locks1.filter (fun x => x ≠ order_id) })
          else
            let orders2 := aupdate order_id
              (fun r =>
                if r.status = "open" then
                  { r with assigned_cleaner_id := some cid,
                           status := "accepted",
                           assigned_at := some now }
                else r) st.orders
            let verified : Bool :=
              match alookup order_id orders2 with
              | some row2 =>
                  row2.status = "accepted" ∧ row2.assigned_cleaner_id = some cid
              | none => false
            if verified then
              (.ok "Order accepted",
               { st with orders := orders2,
                         order_locks := locks1.filter (fun x => x ≠ order_id),
                         cache := st.cache.clear })
            else
              (.err "Failed to grab order" 409,
               { st with orders := orders2,
                         order_locks := locks1.filter (fun x => x ≠ order_id) })

/-- `_complete_order` (lines 846-852): unconditional
`UPDATE orders SET status = 'completed' WHERE id = ?`.  No status
precondition, no cache invalidation. -/
def complete_order (st : ServerState) (order_id : Nat) : Resp × ServerState :=
  (.ok "Order completed",
   { st with orders := aupdate order_id (fun r => { r with status := "completed" }) st.orders })

/-- `_cancel_order` (lines 939-945): unconditional
`UPDATE orders SET status = 'cancelled' WHERE id = ?`.  No status
precondition, no clearing of `assigned_cleaner_id`, no cache
invalidation. -/
def cancel_order (st : ServerState) (order_id : Nat) : Resp × ServerState :=
  (.ok "Order cancelled",
   { st with orders := aupdate order_id (fun r => { r with status := "cancelled" }) st.orders })

/-- `_delete_order` (lines 931-937): `DELETE FROM orders WHERE id = ?`.
No cache invalidation. -/
def delete_order (st : ServerState) (order_id : Nat) : Resp × ServerState :=
  (.ok "Order deleted", { st with orders := aerase order_id st.orders })

/-- The statuses `_update_order` accepts. -/
def valid_statuses : List String := ["open", "accepted", "arrived", "completed", "cancelled"]

/-- The field-by-field row rewrite `_update_order` builds (its `updates`
list applied to the row with the requested id). -/
def updateRow (d : UpdateData) (r : OrderRow) : OrderRow :=
  let r := match truthyN d.property_id with
           | some p => { r with property_id := p } | none => r
  let r := match truthyS d.checkout_time with
           | some c => { r with checkout_time := c } | none => r
  let r := match truthyI d.price with
           | some p => { r with price := p } | none => r
  let r := match truthyS d.status with
           | some s => { r with status := s } | none => r
  let r := match truthyN d.cleaner_id with
           | some c => { r with assigned_cleaner_id := some c } | none => r
  let r := match d.voice_url with
           | some none => { r with voice_url := none }
           | some (some v) => if v = "" then r else { r with voice_url := some v }
           | none => r
  let r := match d.text_notes with
           | some t => { r with text_notes := t } | none => r
  let r := match d.completion_photos with
           | some c => { r with completion_photos := c } | none => r
  match d.accepted_by_host with
  | some a => { r with accepted_by_host := a } | none => r

/-- Whether `_update_order`'s `updates` list is non-empty (only then
does it run the UPDATE and clear the cache). -/
def hasUpdates (d : UpdateData) : Bool :=
  (truthyN d.property_id).isSome || (truthyS d.checkout_time).isSome ||
  (truthyI d.price).isSome || (truthyS d.status).isSome ||
  (truthyN d.cleaner_id).isSome ||
  (match d.voice_url with
   | some none => true
   | some (some v) => v ≠ ""
   | none => false) ||
  d.text_notes.isSome || d.completion_photos.isSome || d.accepted_by_host.isSome

/-- `_update_order` (lines 854-929): validate a truthy `status` against
`valid_statuses` and a truthy `price` for positivity, then apply every
requested field to the row and clear the cache (only when at least one
field is being updated). -/
def update_order (st : ServerState) (order_id : Nat) (d : UpdateData) :
    Resp × ServerState :=
  match truthyS d.status with
  | some s =>
      if s ∉ valid_statuses then
        (.err "Invalid status. Must be one of: open, accepted, arrived, completed, cancelled" 400, st)
      else update_order_apply st order_id d
  | none => update_order_apply st order_id d
where
  update_order_apply (st : ServerState) (order_id : Nat) (d : UpdateData) :
      Resp × ServerState :=
    match truthyI d.price with
    | some p =>
        if p ≤ 0 then (.err "Price must be greater than 0" 400, st)
        else update_order_write st order_id d
    | none => update_order_write st order_id d
  update_order_write (st : ServerState) (order_id : Nat) (d : UpdateData) :
      Resp × ServerState :=
    if hasUpdates d then
      (.ok "Order updated",
       { st with orders := aupdate order_id (updateRow d) st.orders,
                 cache := st.cache.clear })
    else (.ok "Order updated", st)

/-! ## Concurrent claim model (lines 780-844 under interleaving)

For claim C1 the race inside `_verify_accept_order` is modelled as a
small-step system.  The credential phase (lines 751-778) only reads the
`cleaners` table and thread-local data, so the race starts at the lock
acquisition; each SQL statement of the source is one atomic step, per
the spec's storage model (§4.2: atomic `TryAcquire`; §4.5: the
conditional write is a single atomic storage operation).  All calls
target one order, so the shared state is that order's row plus its
`order_locks` entry. -/

/-- Result of one `ClaimOrder` call in the concurrent model, with the
HTTP code the handler would send. -/
inductive CResult where
  | lockBusy
  | orderGone
  | taken (s : String)
  | grabFail
  | okAccepted
  deriving DecidableEq, Repr

/-- HTTP code of each exit of lines 786-844. -/
def CResult.httpCode : CResult → Nat
  | .lockBusy => 409
  | .orderGone => 404
  | .taken _ => 409
  | .grabFail => 409
  | .okAccepted => 200

/-- Program counter of one in-flight call: the SQL statement it will
execute next (or its final result). -/
inductive TState where
  | tryLock
  | readStatus
  | doUpdate
  | verifyRow
  | releaseOk
  | done (r : CResult)
  deriving DecidableEq, Repr

def TState.isDone : TState → Bool
  | .done _ => true
  | _ => false

/-- Whether a call currently holds the claim lock (it is past the
successful `INSERT OR IGNORE` and before the `DELETE`). -/
def TState.inCS : TState → Bool
  | .readStatus => true
  | .doUpdate => true
  | .verifyRow => true
  | .releaseOk => true
  | _ => false

/-- The shared rows all racing calls touch: the order row (existence,
status, assignee) and its lock-table entry. -/
structure ClaimShared where
  present : Bool
  status : String
  assigned : Option Nat
  locked : Bool
  deriving DecidableEq, Repr

/-- One atomic step of the call whose cleaner id is `cid`:
* `tryLock` — `INSERT OR IGNORE INTO order_locks` (line 785): held →
  409 `lockBusy`, else acquire;
* `readStatus` — `SELECT status` (line 793): absent → release, 404;
  non-`open` → release, 409 `taken`; else continue;
* `doUpdate` — the conditional `UPDATE ... WHERE id = ? AND
  status = 'open'` (lines 808-812);
* `verifyRow` — re-read (lines 815-818): not `accepted` by `cid` →
  release, 409 `grabFail`;
* `releaseOk` — `DELETE FROM order_locks` and success (lines 827-844). -/
def threadStep (cid : Nat) (sh : ClaimShared) : TState → ClaimShared × TState
  | .tryLock =>
      if sh.locked then (sh, .done .lockBusy)
      else ({ sh with locked := true }, .readStatus)
  | .readStatus =>
      if sh.present = false then ({ sh with locked := false }, .done .orderGone)
      else if sh.status = "open" then (sh, .doUpdate)
      else ({ sh with locked := false }, .done (.taken sh.status))
  | .doUpdate =>
      (if sh.status = "open"
       then { sh with status := "accepted", assigned := some cid }
       else sh, .verifyRow)
  | .verifyRow =>
      if sh.status = "accepted" ∧ sh.assigned = some cid then (sh, .releaseOk)
      else ({ sh with locked := false }, .done .grabFail)
  | .releaseOk => ({ sh with locked := false }, .done .okAccepted)
  | .done r => (sh, .done r)

/-- Configuration of `n` racing calls: shared rows plus each call's
program counter. -/
structure ClaimCfg (n : Nat) where
  shared : ClaimShared
  tstates : Fin n → TState

/-- Run one atomic statement of call `t` (`cids t` is its cleaner id). -/
def ClaimCfg.stepT {n : Nat} (cids : Fin n → Nat) (cfg : ClaimCfg n) (t : Fin n) :
    ClaimCfg n :=
  let p := threadStep (cids t) cfg.shared (cfg.tstates t)
  { shared := p.1, tstates := Function.update cfg.tstates t p.2 }

/-- Interleaving: some unfinished call executes its next statement. -/
def ClaimStep {n : Nat} (cids : Fin n → Nat) (a b : ClaimCfg n) : Prop :=
  ∃ t : Fin n, (a.tstates t).isDone = false ∧ b = a.stepT cids t

/-- All schedules of the `n` calls. -/
def ClaimReach {n : Nat} (cids : Fin n → Nat) : ClaimCfg n → ClaimCfg n → Prop :=
  Relation.ReflTransGen (ClaimStep cids)

/-- Starting point of claim C1: the order exists with status `open`, is
unassigned, its lock is free, and all `n` calls are about to try the
lock. -/
def initCfg (n : Nat) : ClaimCfg n :=
  { shared := { present := true, status := "open", assigned := none, locked := false },
    tstates := fun _ => .tryLock }

/-- A call that performed the `open → accepted` write (it is at or past
a successful post-write verification). -/
def TState.pastUpdate : TState → Bool
  | .verifyRow => true
  | .releaseOk => true
  | .done .okAccepted => true
  | _ => false

/-- Program counters possible before anyone has claimed the order
(phase A of the race). -/
def pcA : TState → Bool
  | .tryLock => true
  | .readStatus => true
  | .doUpdate => true
  | .done .lockBusy => true
  | _ => false

/-- Program counters of the winning call once the order is claimed. -/
def pcW : TState → Bool
  | .verifyRow => true
  | .releaseOk => true
  | .done .okAccepted => true
  | _ => false

/-- Program counters of a losing call once the order is claimed. -/
def pcL : TState → Bool
  | .tryLock => true
  | .readStatus => true
  | .done .lockBusy => true
  | .done (.taken s) => s == "accepted"
  | _ => false

theorem pcA_cases {s : TState} (h : pcA s = true) :
    s = .tryLock ∨ s = .readStatus ∨ s = .doUpdate ∨ s = .done .lockBusy := by
  cases s with
  | done r => cases r <;> simp_all [pcA]
  | _ => simp_all [pcA]

theorem pcW_cases {s : TState} (h : pcW s = true) :
    s = .verifyRow ∨ s = .releaseOk ∨ s = .done .okAccepted := by
  cases s with
  | done r => cases r <;> simp_all [pcW]
  | _ => simp_all [pcW]

theorem pcL_cases {s : TState} (h : pcL s = true) :
    s = .tryLock ∨ s = .readStatus ∨ s = .done .lockBusy ∨
      s = .done (.taken "accepted") := by
  cases s with
  | done r =>
      cases r with
      | taken str =>
          simp only [pcL, beq_iff_eq] at h
          subst h
          exact Or.inr (Or.inr (Or.inr rfl))
      | _ => simp_all [pcL]
  | _ => simp_all [pcL]

theorem inCS_not_done {s : TState} (h : s.inCS = true) : s.isDone = false := by
  cases s <;> simp_all [TState.inCS, TState.isDone]

/-- Global invariant of the race: the order row still exists; at most
one call is inside the critical section and the lock row exists exactly
when one is; and the system is in one of two phases — the order is
still `open`, unassigned, every call is pre-claim (and a 409-on-lock
answer implies the lock is genuinely held), or the order is `accepted`
by the unique winner and every other call is on a losing path. -/
def ClaimInv {n : Nat} (cids : Fin n → Nat) (cfg : ClaimCfg n) : Prop :=
  cfg.shared.present = true ∧
  (∀ t u, (cfg.tstates t).inCS = true → (cfg.tstates u).inCS = true → t = u) ∧
  (cfg.shared.locked = true ↔ ∃ t, (cfg.tstates t).inCS = true) ∧
  ((cfg.shared.status = "open" ∧ cfg.shared.assigned = none ∧
      (∀ t, pcA (cfg.tstates t) = true) ∧
      ((∃ t, cfg.tstates t = .done .lockBusy) →
        ∃ u, (cfg.tstates u).inCS = true)) ∨
   (cfg.shared.status = "accepted" ∧
      ∃ w, cfg.shared.assigned = some (cids w) ∧ pcW (cfg.tstates w) = true ∧
        ∀ t, t ≠ w → pcL (cfg.tstates t) = true))

theorem claimInv_init (n : Nat) (cids : Fin n → Nat) : ClaimInv cids (initCfg n) := by
  refine ⟨rfl, ?_, ?_, Or.inl ⟨rfl, rfl, ?_, ?_⟩⟩
  · intro t u ht
    simp [initCfg, TState.inCS] at ht
  · constructor
    · intro h
      simp [initCfg] at h
    · rintro ⟨t, ht⟩
      simp [initCfg, TState.inCS] at ht
  · intro t
    simp [initCfg, pcA]
  · rintro ⟨t, ht⟩
    simp [initCfg] at ht

/-- Every interleaved statement of the racing calls preserves
`ClaimInv`. -/
theorem claimInv_step {n : Nat} {cids : Fin n → Nat} {a b : ClaimCfg n}
    (hinv : ClaimInv cids a) (hstep : ClaimStep cids a b) : ClaimInv cids b := by
  obtain ⟨t, hnd, rfl⟩ := hstep
  obtain ⟨hpres, hmux, hlock, hphase⟩ := hinv
  cases hts : a.tstates t with
  | done r => rw [hts] at hnd; simp [TState.isDone] at hnd
  | tryLock =>
    by_cases hl : a.shared.locked = true
    · -- the lock is held: exit with 409 lockBusy
      have hb : a.stepT cids t =
          { shared := a.shared,
            tstates := Function.update a.tstates t (.done .lockBusy) } := by
        simp [ClaimCfg.stepT, threadStep, hts, hl]
      rw [hb]
      obtain ⟨v, hv⟩ := hlock.mp hl
      have hvt : v ≠ t := by
        intro h
        rw [h, hts] at hv
        exact absurd hv (by decide)
      have hv' : ((Function.update a.tstates t (TState.done .lockBusy)) v).inCS = true := by
        rw [Function.update_noteq hvt]; exact hv
      refine ⟨hpres, ?_, ?_, ?_⟩
      · intro x y hx hy
        simp only [Function.update_apply] at hx hy
        by_cases hxt : x = t
        · rw [if_pos hxt] at hx; exact absurd hx (by decide)
        · rw [if_neg hxt] at hx
          by_cases hyt : y = t
          · rw [if_pos hyt] at hy; exact absurd hy (by decide)
          · rw [if_neg hyt] at hy; exact hmux x y hx hy
      · exact ⟨fun _ => ⟨v, hv'⟩, fun _ => hl⟩
      · rcases hphase with ⟨hop, hass, hall, _⟩ | ⟨hacc, w, hw1, hw2, hw3⟩
        · refine Or.inl ⟨hop, hass, ?_, fun _ => ⟨v, hv'⟩⟩
          intro u
          simp only [Function.update_apply]
          by_cases hut : u = t
          · rw [if_pos hut]; decide
          · rw [if_neg hut]; exact hall u
        · refine Or.inr ⟨hacc, w, hw1, ?_, ?_⟩
          · have hwt : w ≠ t := by
              intro h
              rw [h, hts] at hw2
              exact absurd hw2 (by decide)
            simp only [Function.update_noteq hwt]; exact hw2
          · intro u hu
            simp only [Function.update_apply]
            by_cases hut : u = t
            · rw [if_pos hut]; decide
            · rw [if_neg hut]; exact hw3 u hu
    · -- the lock is free: acquire it
      have hlf : a.shared.locked = false := by
        cases h : a.shared.locked
        · rfl
        · exact absurd h hl
      have hb : a.stepT cids t =
          { shared := { a.shared with locked := true },
            tstates := Function.update a.tstates t .readStatus } := by
        simp [ClaimCfg.stepT, threadStep, hts, hlf]
      rw [hb]
      have hnoCS : ∀ u, (a.tstates u).inCS = false := by
        intro u
        cases h : (a.tstates u).inCS
        · rfl
        · exact absurd (hlock.mpr ⟨u, h⟩) (by simp [hlf])
      refine ⟨hpres, ?_, ?_, ?_⟩
      · intro x y hx hy
        simp only [Function.update_apply] at hx hy
        by_cases hxt : x = t
        · by_cases hyt : y = t
          · rw [hxt, hyt]
          · rw [if_neg hyt, hnoCS y] at hy; exact absurd hy (by decide)
        · rw [if_neg hxt, hnoCS x] at hx; exact absurd hx (by decide)
      · constructor
        · intro _
          exact ⟨t, by simp [Function.update_same, TState.inCS]⟩
        · intro _; rfl
      · rcases hphase with ⟨hop, hass, hall, _⟩ | ⟨hacc, w, hw1, hw2, hw3⟩
        · refine Or.inl ⟨hop, hass, ?_,
            fun _ => ⟨t, by simp [Function.update_same, TState.inCS]⟩⟩
          intro u
          simp only [Function.update_apply]
          by_cases hut : u = t
          · rw [if_pos hut]; decide
          · rw [if_neg hut]; exact hall u
        · refine Or.inr ⟨hacc, w, hw1, ?_, ?_⟩
          · have hwt : w ≠ t := by
              intro h
              rw [h, hts] at hw2
              exact absurd hw2 (by decide)
            simp only [Function.update_noteq hwt]; exact hw2
          · intro u hu
            simp only [Function.update_apply]
            by_cases hut : u = t
            · rw [if_pos hut]; decide
            · rw [if_neg hut]; exact hw3 u hu
  | readStatus =>
    have htCS : (a.tstates t).inCS = true := by rw [hts]; rfl
    rcases hphase with ⟨hop, hass, hall, _⟩ | ⟨hacc, w, hw1, hw2, hw3⟩
    · -- phase A: the order is open, proceed to the conditional update
      have hb : a.stepT cids t =
          { shared := a.shared,
            tstates := Function.update a.tstates t .doUpdate } := by
        simp [ClaimCfg.stepT, threadStep, hts, hpres, hop]
      rw [hb]
      refine ⟨hpres, ?_, ?_, ?_⟩
      · intro x y hx hy
        simp only [Function.update_apply] at hx hy
        by_cases hxt : x = t
        · by_cases hyt : y = t
          · rw [hxt, hyt]
          · rw [if_neg hyt] at hy
            exact absurd (hmux y t hy htCS) hyt
        · rw [if_neg hxt] at hx
          by_cases hyt : y = t
          · exact absurd (hmux x t hx htCS) hxt
          · rw [if_neg hyt] at hy; exact hmux x y hx hy
      · constructor
        · intro _
          exact ⟨t, by simp [Function.update_same, TState.inCS]⟩
        · intro _; exact hlock.mpr ⟨t, htCS⟩
      · refine Or.inl ⟨hop, hass, ?_,
          fun _ => ⟨t, by simp [Function.update_same, TState.inCS]⟩⟩
        intro u
        simp only [Function.update_apply]
        by_cases hut : u = t
        · rw [if_pos hut]; decide
        · rw [if_neg hut]; exact hall u
    · -- phase B: the order is already accepted, exit with 409 taken
      have hwt : t ≠ w := by
        intro h
        rw [← h, hts] at hw2
        exact absurd hw2 (by decide)
      have hb : a.stepT cids t =
          { shared := { a.shared with locked := false },
            tstates := Function.update a.tstates t (.done (.taken "accepted")) } := by
        simp [ClaimCfg.stepT, threadStep, hts, hpres, hacc]
      rw [hb]
      refine ⟨hpres, ?_, ?_, ?_⟩
      · intro x y hx hy
        simp only [Function.update_apply] at hx
        by_cases hxt : x = t
        · rw [if_pos hxt] at hx; exact absurd hx (by decide)
        · rw [if_neg hxt] at hx; exact absurd (hmux x t hx htCS) hxt
      · constructor
        · intro h; simp at h
        · rintro ⟨u, hu⟩
          simp only [Function.update_apply] at hu
          by_cases hut : u = t
          · rw [if_pos hut] at hu; exact absurd hu (by decide)
          · rw [if_neg hut] at hu; exact absurd (hmux u t hu htCS) hut
      · refine Or.inr ⟨hacc, w, hw1, ?_, ?_⟩
        · simp only [Function.update_noteq (Ne.symm hwt)]; exact hw2
        · intro u hu
          simp only [Function.update_apply]
          by_cases hut : u = t
          · rw [if_pos hut]; decide
          · rw [if_neg hut]; exact hw3 u hu
  | doUpdate =>
    have htCS : (a.tstates t).inCS = true := by rw [hts]; rfl
    rcases hphase with ⟨hop, hass, hall, _⟩ | ⟨hacc, w, hw1, hw2, hw3⟩
    · -- phase A: perform the open → accepted write; t becomes the winner
      have hb : a.stepT cids t =
          { shared := { a.shared with status := "accepted", assigned := some (cids t) },
            tstates := Function.update a.tstates t .verifyRow } := by
        simp [ClaimCfg.stepT, threadStep, hts, hop]
      rw [hb]
      refine ⟨hpres, ?_, ?_, Or.inr ⟨rfl, t, rfl, ?_, ?_⟩⟩
      · intro x y hx hy
        simp only [Function.update_apply] at hx hy
        by_cases hxt : x = t
        · by_cases hyt : y = t
          · rw [hxt, hyt]
          · rw [if_neg hyt] at hy
            exact absurd (hmux y t hy htCS) hyt
        · rw [if_neg hxt] at hx
          by_cases hyt : y = t
          · exact absurd (hmux x t hx htCS) hxt
          · rw [if_neg hyt] at hy; exact hmux x y hx hy
      · constructor
        · intro _
          exact ⟨t, by simp [Function.update_same, TState.inCS]⟩
        · intro _; exact hlock.mpr ⟨t, htCS⟩
      · simp [Function.update_same, pcW]
      · intro u hu
        simp only [Function.update_noteq hu]
        rcases pcA_cases (hall u) with h | h | h | h
        · rw [h]; decide
        · exfalso
          have hcs : (a.tstates u).inCS = true := by rw [h]; rfl
          exact hu (hmux u t hcs htCS)
        · exfalso
          have hcs : (a.tstates u).inCS = true := by rw [h]; rfl
          exact hu (hmux u t hcs htCS)
        · rw [h]; decide
    · -- phase B cannot have a call at the update statement
      exfalso
      by_cases hwt : t = w
      · rw [hwt] at hts; rw [hts] at hw2; exact absurd hw2 (by decide)
      · have h := hw3 t hwt; rw [hts] at h; exact absurd h (by decide)
  | verifyRow =>
    have htCS : (a.tstates t).inCS = true := by rw [hts]; rfl
    rcases hphase with ⟨hop, hass, hall, _⟩ | ⟨hacc, w, hw1, hw2, hw3⟩
    · exfalso
      have h := hall t; rw [hts] at h; exact absurd h (by decide)
    · have hwt : t = w := by
        by_contra h
        have h' := hw3 t h; rw [hts] at h'; exact absurd h' (by decide)
      subst hwt
      -- the winner's verification succeeds: status accepted, assigned to it
      have hb : a.stepT cids t =
          { shared := a.shared,
            tstates := Function.update a.tstates t .releaseOk } := by
        simp [ClaimCfg.stepT, threadStep, hts, hacc, hw1]
      rw [hb]
      refine ⟨hpres, ?_, ?_, Or.inr ⟨hacc, t, hw1, ?_, ?_⟩⟩
      · intro x y hx hy
        simp only [Function.update_apply] at hx hy
        by_cases hxt : x = t
        · by_cases hyt : y = t
          · rw [hxt, hyt]
          · rw [if_neg hyt] at hy
            exact absurd (hmux y t hy htCS) hyt
        · rw [if_neg hxt] at hx
          by_cases hyt : y = t
          · exact absurd (hmux x t hx htCS) hxt
          · rw [if_neg hyt] at hy; exact hmux x y hx hy
      · constructor
        · intro _
          exact ⟨t, by simp [Function.update_same, TState.inCS]⟩
        · intro _; exact hlock.mpr ⟨t, htCS⟩
      · simp [Function.update_same, pcW]
      · intro u hu
        simp only [Function.update_noteq hu]; exact hw3 u hu
  | releaseOk =>
    have htCS : (a.tstates t).inCS = true := by rw [hts]; rfl
    rcases hphase with ⟨hop, hass, hall, _⟩ | ⟨hacc, w, hw1, hw2, hw3⟩
    · exfalso
      have h := hall t; rw [hts] at h; exact absurd h (by decide)
    · have hwt : t = w := by
        by_contra h
        have h' := hw3 t h; rw [hts] at h'; exact absurd h' (by decide)
      subst hwt
      have hb : a.stepT cids t =
          { shared := { a.shared with locked := false },
            tstates := Function.update a.tstates t (.done .okAccepted) } := by
        simp [ClaimCfg.stepT, threadStep, hts]
      rw [hb]
      refine ⟨hpres, ?_, ?_, Or.inr ⟨hacc, t, hw1, ?_, ?_⟩⟩
      · intro x y hx hy
        simp only [Function.update_apply] at hx
        by_cases hxt : x = t
        · rw [if_pos hxt] at hx; exact absurd hx (by decide)
        · rw [if_neg hxt] at hx; exact absurd (hmux x t hx htCS) hxt
      · constructor
        · intro h; simp at h
        · rintro ⟨u, hu⟩
          simp only [Function.update_apply] at hu
          by_cases hut : u = t
          · rw [if_pos hut] at hu; exact absurd hu (by decide)
          · rw [if_neg hut] at hu; exact absurd (hmux u t hu htCS) hut
      · simp [Function.update_same, pcW]
      · intro u hu
        simp only [Function.update_noteq hu]; exact hw3 u hu
/-- The invariant holds in every reachable configuration. -/
theorem claimInv_reach {n : Nat} {cids : Fin n → Nat} {cfg : ClaimCfg n}
    (h : ClaimReach cids (initCfg n) cfg) : ClaimInv cids cfg := by
  induction h with
  | refl => exact claimInv_init n cids
  | tail _ hstep ih => exact claimInv_step ih hstep

/-- In an invariant configuration where every call has finished, one
call succeeded and each of the others holds a 409. -/
theorem claimInv_terminal {n : Nat} (hn : 0 < n) {cids : Fin n → Nat}
    {cfg : ClaimCfg n} (hinv : ClaimInv cids cfg)
    (hdone : ∀ t, (cfg.tstates t).isDone = true) :
    ∃ w, cfg.tstates w = .done .okAccepted ∧
      ∀ t, t ≠ w → ∃ r, cfg.tstates t = .done r ∧ r.httpCode = 409 := by
  obtain ⟨_, _, _, hphase⟩ := hinv
  rcases hphase with ⟨_, _, hall, hbusy⟩ | ⟨_, w, _, hw2, hw3⟩
  · -- pre-claim phase cannot be terminal
    exfalso
    have ht0 := hall ⟨0, hn⟩
    rcases pcA_cases ht0 with h | h | h | h
    · have := hdone ⟨0, hn⟩; rw [h] at this; exact absurd this (by decide)
    · have := hdone ⟨0, hn⟩; rw [h] at this; exact absurd this (by decide)
    · have := hdone ⟨0, hn⟩; rw [h] at this; exact absurd this (by decide)
    · obtain ⟨u, hu⟩ := hbusy ⟨⟨0, hn⟩, h⟩
      have := hdone u
      rw [inCS_not_done hu] at this
      exact absurd this (by decide)
  · refine ⟨w, ?_, ?_⟩
    · rcases pcW_cases hw2 with h | h | h
      · have := hdone w; rw [h] at this; exact absurd this (by decide)
      · have := hdone w; rw [h] at this; exact absurd this (by decide)
      · exact h
    · intro t ht
      rcases pcL_cases (hw3 t ht) with h | h | h | h
      · have := hdone t; rw [h] at this; exact absurd this (by decide)
      · have := hdone t; rw [h] at this; exact absurd this (by decide)
      · exact ⟨.lockBusy, h, rfl⟩
      · exact ⟨.taken "accepted", h, rfl⟩

/-- In an invariant configuration at most one call has performed the
`open → accepted` transition. -/
theorem claimInv_once {n : Nat} {cids : Fin n → Nat} {cfg : ClaimCfg n}
    (hinv : ClaimInv cids cfg) :
    ∀ t u, (cfg.tstates t).pastUpdate = true → (cfg.tstates u).pastUpdate = true →
      t = u := by
  obtain ⟨_, _, _, hphase⟩ := hinv
  intro t u ht hu
  rcases hphase with ⟨_, _, hall, _⟩ | ⟨_, w, _, _, hw3⟩
  · exfalso
    rcases pcA_cases (hall t) with h | h | h | h <;>
      (rw [h] at ht; exact absurd ht (by decide))
  · have hTw : t = w := by
      by_contra h
      rcases pcL_cases (hw3 t h) with h' | h' | h' | h' <;>
        (rw [h'] at ht; exact absurd ht (by decide))
    have hUw : u = w := by
      by_contra h
      rcases pcL_cases (hw3 u h) with h' | h' | h' | h' <;>
        (rw [h'] at hu; exact absurd hu (by decide))
    rw [hTw, hUw]

/-- C1 (spec §8 Exclusivity, §5 Ordering guarantee): for `n ≥ 2`
concurrent `ClaimOrder` calls by eligible workers against one order
with status `open`, under every interleaving of the statements of
lines 785-844: once all calls have returned, exactly one returned
success and every other returned a 409 Conflict; and in every reachable
configuration at most one call has transitioned the order out of
`open`. -/
theorem claim_exclusivity (n : Nat) (hn : 2 ≤ n) (cids : Fin n → Nat)
    (cfg : ClaimCfg n) (hreach : ClaimReach cids (initCfg n) cfg) :
    ((∀ t, (cfg.tstates t).isDone = true) →
       ∃ w, cfg.tstates w = .done .okAccepted ∧
         ∀ t, t ≠ w → ∃ r, cfg.tstates t = .done r ∧ r.httpCode = 409) ∧
    (∀ t u, (cfg.tstates t).pastUpdate = true →
       (cfg.tstates u).pastUpdate = true → t = u) := by
  have hinv := claimInv_reach hreach
  exact ⟨fun hdone =>
           claimInv_terminal (lt_of_lt_of_le (by norm_num) hn) hinv hdone,
         claimInv_once hinv⟩

/-- A concrete schedule of two racing calls (cleaner ids 7 and 8):
call 0 runs to completion, then call 1 trips over the claimed order. -/
def exCids : Fin 2 → Nat := fun t => if t = 0 then 7 else 8

def exStep0 : ClaimCfg 2 := (initCfg 2).stepT exCids 0

def exStep1 : ClaimCfg 2 := exStep0.stepT exCids 0

def exStep2 : ClaimCfg 2 := exStep1.stepT exCids 0

def exStep3 : ClaimCfg 2 := exStep2.stepT exCids 0

def exStep4 : ClaimCfg 2 := exStep3.stepT exCids 0

def exStep5 : ClaimCfg 2 := exStep4.stepT exCids 1

def exCfg : ClaimCfg 2 := exStep5.stepT exCids 1

theorem exReach : ClaimReach exCids (initCfg 2) exCfg :=
  Relation.ReflTransGen.tail
    (Relation.ReflTransGen.tail
      (Relation.ReflTransGen.tail
        (Relation.ReflTransGen.tail
          (Relation.ReflTransGen.tail
            (Relation.ReflTransGen.tail
              (Relation.ReflTransGen.tail
                (Relation.ReflTransGen.refl)
                ⟨0, by decide, rfl⟩)
              ⟨0, by decide, rfl⟩)
            ⟨0, by decide, rfl⟩)
          ⟨0, by decide, rfl⟩)
        ⟨0, by decide, rfl⟩)
      ⟨1, by decide, rfl⟩)
    ⟨1, by decide, rfl⟩

theorem claim_exclusivity_witness :
    ∃ w : Fin 2, exCfg.tstates w = .done .okAccepted ∧
      ∀ t, t ≠ w → ∃ r, exCfg.tstates t = .done r ∧ r.httpCode = 409 :=
  (claim_exclusivity 2 (by decide) exCids exCfg exReach).1 (by decide)

theorem alookup_aerase_self {κ β : Type} [DecidableEq κ] (k : κ) (l : List (κ × β)) :
    alookup k (aerase k l) = none := by
  induction l with
  | nil => rfl
  | cons p rest ih =>
      by_cases h : p.1 = k
      · simpa [aerase, List.filter_cons, h] using ih
      · simpa [aerase, List.filter_cons, h, alookup] using ih

theorem filter_ne_of_not_mem {l : List Nat} {a : Nat} (h : a ∉ l) :
    l.filter (fun x => x ≠ a) = l := by
  induction l with
  | nil => rfl
  | cons b rest ih =>
      have hb : b ≠ a := fun he => h (he ▸ List.mem_cons_self b rest)
      have hr : a ∉ rest := fun hm => h (List.mem_cons_of_mem b hm)
      rw [List.filter_cons, if_pos (decide_eq_true hb), ih hr]

/-- Example order row used for concrete runs. -/
def exRow (s : String) (a : Option Nat) : OrderRow :=
  { property_id := 1
    host_name := "h"
    host_phone := "ph"
    checkout_time := "2024-01-01 10:00"
    price := 100
    status := s
    assigned_cleaner_id := a
    assigned_at := none
    voice_url := none
    text_notes := none
    completion_photos := none
    accepted_by_host := none }

/-- C9: `Cache.get` returns the value most recently stored by
`Cache.set` exactly while strictly less than `ttl` seconds have elapsed
since the set; once at least `ttl` seconds have elapsed it returns
absent and evicts the entry; and a never-set key reads as absent. -/
theorem cache_ttl {α : Type} (c : Cache α) (k : String) (v : α) (t1 t2 : Int) :
    (((Cache.set c k v t1).get k t2).1 = some v ↔ t2 - t1 < c.ttl) ∧
    (c.ttl ≤ t2 - t1 →
      ((Cache.set c k v t1).get k t2).1 = none ∧
      alookup k (((Cache.set c k v t1).get k t2).2.entries) = none) ∧
    (∀ c' : Cache α, alookup k c'.entries = none → (c'.get k t2).1 = none) := by
  refine ⟨?_, ?_, ?_⟩
  · simp only [Cache.get, Cache.set, alookup_aset_self]
    by_cases h : t2 - t1 < c.ttl
    · simp [h]
    · simp [h]
  · intro hexp
    have h : ¬ t2 - t1 < c.ttl := by omega
    simp only [Cache.get, Cache.set, alookup_aset_self, if_neg h]
    exact ⟨by trivial, alookup_aerase_self k _⟩
  · intro c' hc'
    simp [Cache.get, hc']

theorem cache_ttl_witness :
    ((Cache.set (⟨[], 30⟩ : Cache Nat) "stats" 7 0).get "stats" 10).1 = some 7 :=
  (cache_ttl ⟨[], 30⟩ "stats" 7 0 10).1.mpr (by decide)

/-- A submission that passes `Validator.validate_order` has a truthy
property id, checkout time, and a positive price. -/
theorem validate_order_none {d : CreateData} (h : validate_order d = none) :
    truthyN d.property_id ≠ none ∧ truthyS d.checkout_time ≠ none ∧
      ¬ d.price.getD 0 ≤ 0 := by
  unfold validate_order at h
  split_ifs at h with h1 h2 h3
  exact ⟨h1, h2, h3⟩

/-- C8: two creation submissions carrying the same idempotency key, the
second arriving strictly within the 60-second window after the first,
create exactly one order row, the second being rejected as a duplicate
with 409; and a key first seen at least 60 seconds earlier is treated
as first time by the guard and the submission proceeds (it is never
rejected as a duplicate). -/
theorem idempotent_creation (st : ServerState) (d : CreateData) (k : String)
    (p : Nat) (t1 t2 : Int)
    (hk : truthyS d.idempotency_key = some k)
    (hfresh : alookup k st.idem = none)
    (hvalid : validate_order d = none)
    (hp : d.property_id = some p)
    (hmem : p ∈ st.properties)
    (ht : t1 ≤ t2) (hwin : t2 - t1 < 60) :
    ((create_order st d t1).1 = .ok "Order created" ∧
     (create_order st d t1).2.orders.length = st.orders.length + 1 ∧
     (create_order (create_order st d t1).2 d t2).1 = .err "Duplicate request" 409 ∧
     (create_order (create_order st d t1).2 d t2).2.orders =
       (create_order st d t1).2.orders) ∧
    (∀ (st' : ServerState) (now t0 : Int),
       alookup k st'.idem = some t0 → 60 ≤ now - t0 →
       (idemCheck st'.idem k now).1 = true ∧
       (create_order st' d now).1 ≠ .err "Duplicate request" 409) := by
  have hchk : idemCheck st.idem k t1 = (true, aset k t1 st.idem) := by
    simp [idemCheck, hfresh]
  have hr1 : create_order st d t1 =
      (.ok "Order created",
       { st with
          orders := st.orders ++
            [(st.next_order_id,
              { property_id := p
                host_name := d.host_name.getD ""
                host_phone := d.host_phone.getD ""
                checkout_time := d.checkout_time.getD ""
                price := d.price.getD 100
                status := "open"
                assigned_cleaner_id := none
                assigned_at := none
                voice_url := d.voice_url
                text_notes := d.text_notes
                completion_photos := none
                accepted_by_host := none })]
          next_order_id := st.next_order_id + 1
          idem := aset k t1 st.idem
          cache := st.cache.clear }) := by
    simp only [create_order, hvalid, hk, hchk, hp]
    simp [hmem]
  have hchk2 : idemCheck (aset k t1 st.idem) k t2 = (false, aset k t1 st.idem) := by
    have : t2 - t1 < idemWindow := by simp only [idemWindow]; omega
    simp [idemCheck, alookup_aset_self, this]
  constructor
  · refine ⟨?_, ?_, ?_, ?_⟩
    · rw [hr1]
    · rw [hr1]; simp
    · rw [hr1]
      simp only [create_order, hvalid, hk]
      simp [hchk2]
    · rw [hr1]
      simp only [create_order, hvalid, hk]
      simp [hchk2]
  · intro st' now t0 h0 h60
    have hlt : ¬ now - t0 < idemWindow := by simp only [idemWindow]; omega
    have hchk' : idemCheck st'.idem k now = (true, aset k now st'.idem) := by
      simp [idemCheck, h0, hlt]
    refine ⟨by simp [hchk'], ?_⟩
    simp only [create_order, hvalid, hk, hchk', hp]
    by_cases hmem' : p ∈ st'.properties
    · simp [hmem']
    · simp [hmem']

/-- C10: when a creation submission carries an idempotency key and then
fails the property-existence check (404), the key has nonetheless been
recorded, so an identical retry strictly within the window is rejected
with 409 even though no order was created: creation is not atomic with
the idempotency record. -/
theorem idem_records_failed_creation (st : ServerState) (d : CreateData)
    (k : String) (p : Nat) (t1 t2 : Int)
    (hk : truthyS d.idempotency_key = some k)
    (hfresh : alookup k st.idem = none)
    (hvalid : validate_order d = none)
    (hp : d.property_id = some p)
    (hnoprop : p ∉ st.properties)
    (hwin : t2 - t1 < 60) :
    (create_order st d t1).1 = .err "Property not found" 404 ∧
    (create_order st d t1).2.orders = st.orders ∧
    alookup k (create_order st d t1).2.idem = some t1 ∧
    (create_order (create_order st d t1).2 d t2).1 = .err "Duplicate request" 409 ∧
    (create_order (create_order st d t1).2 d t2).2.orders = st.orders := by
  have hchk : idemCheck st.idem k t1 = (true, aset k t1 st.idem) := by
    simp [idemCheck, hfresh]
  have hr1 : create_order st d t1 =
      (.err "Property not found" 404, { st with idem := aset k t1 st.idem }) := by
    simp only [create_order, hvalid, hk, hchk, hp]
    simp [hnoprop]
  have hchk2 : idemCheck (aset k t1 st.idem) k t2 = (false, aset k t1 st.idem) := by
    have : t2 - t1 < idemWindow := by simp only [idemWindow]; omega
    simp [idemCheck, alookup_aset_self, this]
  refine ⟨?_, ?_, ?_, ?_, ?_⟩
  · rw [hr1]
  · rw [hr1]
  · rw [hr1]; exact alookup_aset_self k t1 st.idem
  · rw [hr1]
    simp only [create_order, hvalid, hk]
    simp [hchk2]
  · rw [hr1]
    simp only [create_order, hvalid, hk]
    simp [hchk2]

/-- Example creation submission carrying an idempotency key. -/
def exCreateData : CreateData :=
  { property_id := some 1
    checkout_time := some "2024-01-01 10:00"
    price := some 100
    host_name := some "h"
    host_phone := some "p"
    voice_url := none
    text_notes := none
    idempotency_key := some "key1" }

def exStC8 : ServerState :=
  { orders := [], order_locks := [], cleaners := [], properties := [1],
    cache := ⟨[], 30⟩, idem := [], next_order_id := 1 }

theorem idempotent_creation_witness :
    (create_order exStC8 exCreateData 0).1 = .ok "Order created" ∧
    (create_order exStC8 exCreateData 0).2.orders.length =
      exStC8.orders.length + 1 ∧
    (create_order (create_order exStC8 exCreateData 0).2 exCreateData 30).1 =
      .err "Duplicate request" 409 ∧
    (create_order (create_order exStC8 exCreateData 0).2 exCreateData 30).2.orders =
      (create_order exStC8 exCreateData 0).2.orders :=
  (idempotent_creation exStC8 exCreateData "key1" 1 0 30 (by decide) (by decide)
    (by decide) (by decide) (by decide) (by decide) (by decide)).1

def exStC10 : ServerState :=
  { orders := [], order_locks := [], cleaners := [], properties := [],
    cache := ⟨[], 30⟩, idem := [], next_order_id := 1 }

theorem idem_records_failed_creation_witness :
    (create_order exStC10 exCreateData 0).1 = .err "Property not found" 404 ∧
    (create_order exStC10 exCreateData 0).2.orders = exStC10.orders ∧
    alookup "key1" (create_order exStC10 exCreateData 0).2.idem = some 0 ∧
    (create_order (create_order exStC10 exCreateData 0).2 exCreateData 30).1 =
      .err "Duplicate request" 409 ∧
    (create_order (create_order exStC10 exCreateData 0).2 exCreateData 30).2.orders =
      exStC10.orders :=
  idem_records_failed_creation exStC10 exCreateData "key1" 1 0 30 (by decide)
    (by decide) (by decide) (by decide) (by decide) (by decide)

/-- Acquiring the claim lock (`INSERT OR IGNORE`) and then deleting the
row restores the lock table. -/
theorem release_insert {l : List Nat} {a : Nat} (h : a ∉ l) :
    (a :: l).filter (fun x => x ≠ a) = l := by
  rw [List.filter_cons, if_neg (by simp), filter_ne_of_not_mem h]

/-- C3: every exit path of `_verify_accept_order` (missing parameters,
unknown worker, wrong code, lock busy, order not found, order not open,
conditional-write failure, success) leaves the `order_locks` table
exactly as it was: a lock taken by the call is always released before
returning. -/
theorem lock_release_all_paths (st : ServerState) (order_id : Nat)
    (cleaner_id : Option Nat) (code : Option String) (now : Int) :
    (verify_accept_order st order_id cleaner_id code now).2.order_locks =
      st.order_locks := by
  cases htn : truthyN cleaner_id with
  | none => simp [verify_accept_order, htn]
  | some cid =>
  cases hts : truthyS code with
  | none => simp [verify_accept_order, htn, hts]
  | some cd =>
  cases hcl : alookup cid st.cleaners with
  | none => simp [verify_accept_order, htn, hts, hcl]
  | some stored =>
  by_cases h1 : stored ≠ cd
  · simp [verify_accept_order, htn, hts, hcl, h1]
  · by_cases hmem : order_id ∈ st.order_locks
    · simp [verify_accept_order, htn, hts, hcl, h1, hmem]
    · cases hrow : alookup order_id st.orders with
      | none =>
          simp [verify_accept_order, htn, hts, hcl, h1, hmem, hrow]
          exact fun a ha h => hmem (h ▸ ha)
      | some row =>
      by_cases h3 : row.status ≠ "open"
      · simp [verify_accept_order, htn, hts, hcl, h1, hmem, hrow, h3]
        exact fun a ha h => hmem (h ▸ ha)
      · have hopen : row.status = "open" := not_not.mp h3
        simp [verify_accept_order, htn, hts, hcl, h1, hmem, hrow, h3,
              alookup_aupdate_self, hopen]
        exact fun a ha h => hmem (h ▸ ha)

/-- C2: a `ClaimOrder` call with valid worker credentials against an
order whose status is `accepted`, `arrived`, `completed`, or
`cancelled` returns a 409 Conflict whose message includes the observed
status (or, if the order is mid-claim by another call, the generic
409), and the server state — in particular the order's row — is
unchanged. -/
theorem state_guard_conflict (st : ServerState) (order_id cid : Nat)
    (cd : String) (now : Int) (row : OrderRow)
    (hcid : cid ≠ 0) (hcd : cd ≠ "")
    (hcred : alookup cid st.cleaners = some cd)
    (hrow : alookup order_id st.orders = some row)
    (hstat : row.status = "accepted" ∨ row.status = "arrived" ∨
             row.status = "completed" ∨ row.status = "cancelled") :
    (order_id ∉ st.order_locks →
       verify_accept_order st order_id (some cid) (some cd) now =
         (.err ("Order already taken (status: " ++ row.status ++ ")") 409, st)) ∧
    (order_id ∈ st.order_locks →
       verify_accept_order st order_id (some cid) (some cd) now =
         (.err "Order already being processed" 409, st)) := by
  have htn : truthyN (some cid) = some cid := by simp [truthyN, hcid]
  have hts : truthyS (some cd) = some cd := by simp [truthyS, hcd]
  have hne : row.status ≠ "open" := by
    rcases hstat with h | h | h | h <;> (rw [h]; decide)
  constructor
  · intro hmem
    have hfe : List.filter (fun x => !decide (x = order_id)) st.order_locks =
        st.order_locks :=
      List.filter_eq_self.mpr (fun a ha => by
        simp only [Bool.not_eq_true', decide_eq_false_iff_not]
        exact fun h => hmem (h ▸ ha))
    simp only [verify_accept_order, htn, hts, hcred, hrow]
    simp [hne, hmem, release_insert hmem]
    rw [hfe]
  · intro hmem
    simp only [verify_accept_order, htn, hts, hcred]
    simp [hmem]

def exStW2 : ServerState :=
  { orders := [(1, exRow "accepted" (some 5))], order_locks := [],
    cleaners := [(1, "123456")], properties := [1],
    cache := ⟨[], 30⟩, idem := [], next_order_id := 2 }

theorem state_guard_conflict_witness :
    verify_accept_order exStW2 1 (some 1) (some "123456") 0 =
      (.err ("Order already taken (status: " ++ (exRow "accepted" (some 5)).status ++ ")")
        409, exStW2) :=
  (state_guard_conflict exStW2 1 1 "123456" 0 (exRow "accepted" (some 5))
    (by decide) (by decide) (by decide) (by decide) (Or.inl rfl)).1 (by decide)

/-- C6 (amended): `_verify_accept_order` rejects a missing `cleaner_id`
or `code` with a 400; an unknown worker yields NotFound (404, not the
400 InvalidCredential the original claim states); a code that does not
match the stored one yields InvalidCredential (400).  All three happen
before the order is read: the result is the same whatever the order's
state, and the state is unchanged. -/
theorem credential_check_amended (st : ServerState) (order_id : Nat)
    (cleaner_id : Option Nat) (code : Option String) (now : Int) :
    (truthyN cleaner_id = none ∨ truthyS code = none →
       verify_accept_order st order_id cleaner_id code now =
         (.err "cleaner_id and code required" 400, st)) ∧
    (∀ cid cd, truthyN cleaner_id = some cid → truthyS code = some cd →
       alookup cid st.cleaners = none →
       verify_accept_order st order_id cleaner_id code now =
         (.err "Cleaner not found" 404, st)) ∧
    (∀ cid cd stored, truthyN cleaner_id = some cid → truthyS code = some cd →
       alookup cid st.cleaners = some stored → stored ≠ cd →
       verify_accept_order st order_id cleaner_id code now =
         (.err "Invalid code" 400, st)) := by
  refine ⟨?_, ?_, ?_⟩
  · rintro (h | h)
    · simp only [verify_accept_order, h]
    · cases htn : truthyN cleaner_id with
      | none => simp only [verify_accept_order, htn]
      | some cid => simp only [verify_accept_order, htn, h]
  · intro cid cd htn hts hcl
    simp only [verify_accept_order, htn, hts, hcl]
  · intro cid cd stored htn hts hcl hne
    simp only [verify_accept_order, htn, hts, hcl]
    simp [hne]

def exStW6 : ServerState :=
  { orders := [(1, exRow "open" none)], order_locks := [],
    cleaners := [(1, "111111")], properties := [1],
    cache := ⟨[], 30⟩, idem := [], next_order_id := 2 }

theorem credential_check_witness :
    verify_accept_order exStW6 1 (some 1) (some "222222") 0 =
      (.err "Invalid code" 400, exStW6) :=
  (credential_check_amended exStW6 1 (some 1) (some "222222") 0).2.2
    1 "222222" "111111" (by decide) (by decide) (by decide) (by decide)

def exStC6 : ServerState :=
  { orders := [(1, exRow "open" none)], order_locks := [], cleaners := [],
    properties := [1], cache := ⟨[], 30⟩, idem := [], next_order_id := 2 }

/-- C6 as stated is false: with no worker of id 1, the call answers 404
`Cleaner not found`, not the 400/InvalidCredential response the claim
requires for an unknown worker. -/
theorem credential_check_cex :
    (verify_accept_order exStC6 1 (some 1) (some "123456") 0).1 =
      .err "Cleaner not found" 404 ∧
    (verify_accept_order exStC6 1 (some 1) (some "123456") 0).1.httpCode ≠ 400 := by
  decide

/-- The spec's data-model invariant on one order row:
`assignedWorkerRef` is non-null iff the status is one of
`accepted`, `arrived`, `completed`. -/
def rowInv (r : OrderRow) : Prop :=
  r.assigned_cleaner_id ≠ none ↔
    (r.status = "accepted" ∨ r.status = "arrived" ∨ r.status = "completed")

instance (r : OrderRow) : Decidable (rowInv r) := by
  unfold rowInv; infer_instance

/-- The invariant over the whole orders table. -/
def ordersInv (st : ServerState) : Prop := ∀ p ∈ st.orders, rowInv p.2

instance (st : ServerState) : Decidable (ordersInv st) := by
  unfold ordersInv; infer_instance

theorem ordersInv_of_eq {st st' : ServerState} (h : st'.orders = st.orders)
    (hinv : ordersInv st) : ordersInv st' := fun p hp => hinv p (h ▸ hp)

/-- C4 (amended): `_verify_accept_order` preserves the invariant that
`assigned_cleaner_id` is non-null iff the status is `accepted`,
`arrived` or `completed`; the lifecycle operations `_complete_order`,
`_cancel_order` and `_update_order` do not (see the counterexample:
cancelling an accepted order keeps its assignee). -/
theorem assigned_iff_active (st : ServerState) (order_id : Nat)
    (cleaner_id : Option Nat) (code : Option String) (now : Int)
    (hinv : ordersInv st) :
    ordersInv (verify_accept_order st order_id cleaner_id code now).2 := by
  cases htn : truthyN cleaner_id with
  | none => exact ordersInv_of_eq (by simp [verify_accept_order, htn]) hinv
  | some cid =>
  cases hts : truthyS code with
  | none => exact ordersInv_of_eq (by simp [verify_accept_order, htn, hts]) hinv
  | some cd =>
  cases hcl : alookup cid st.cleaners with
  | none =>
      exact ordersInv_of_eq (by simp [verify_accept_order, htn, hts, hcl]) hinv
  | some stored =>
  by_cases h1 : stored ≠ cd
  · exact ordersInv_of_eq (by simp [verify_accept_order, htn, hts, hcl, h1]) hinv
  · by_cases hmem : order_id ∈ st.order_locks
    · exact ordersInv_of_eq
        (by simp [verify_accept_order, htn, hts, hcl, h1, hmem]) hinv
    · cases hrow : alookup order_id st.orders with
      | none =>
          exact ordersInv_of_eq
            (by simp [verify_accept_order, htn, hts, hcl, h1, hmem, hrow]) hinv
      | some row =>
      by_cases h3 : row.status ≠ "open"
      · exact ordersInv_of_eq
          (by simp [verify_accept_order, htn, hts, hcl, h1, hmem, hrow, h3]) hinv
      · have hopen : row.status = "open" := not_not.mp h3
        have horders :
            (verify_accept_order st order_id cleaner_id code now).2.orders =
              aupdate order_id
                (fun r =>
                  if r.status = "open" then
                    { r with assigned_cleaner_id := some cid,
                             status := "accepted",
                             assigned_at := some now }
                  else r) st.orders := by
          simp [verify_accept_order, htn, hts, hcl, h1, hmem, hrow, h3,
                alookup_aupdate_self, hopen]
        intro p hp
        rw [horders] at hp
        rcases mem_aupdate hp with h | ⟨q, hq, hqk, hpe⟩
        · exact hinv p h
        · rw [hpe]
          by_cases hqo : q.2.status = "open"
          · simp [hqo, rowInv]
          · simp only [if_neg hqo]
            exact hinv q hq

def exStW4 : ServerState :=
  { orders := [(1, exRow "open" none)], order_locks := [],
    cleaners := [(3, "333333")], properties := [1],
    cache := ⟨[], 30⟩, idem := [], next_order_id := 2 }

theorem assigned_iff_active_witness :
    ordersInv (verify_accept_order exStW4 1 (some 3) (some "333333") 0).2 :=
  assigned_iff_active exStW4 1 (some 3) (some "333333") 0 (by decide)

def exStC4 : ServerState :=
  { orders := [(1, exRow "accepted" (some 5))], order_locks := [],
    cleaners := [], properties := [], cache := ⟨[], 30⟩, idem := [],
    next_order_id := 2 }

/-- C4 as stated is false: cancelling an accepted order leaves
`assigned_cleaner_id = 5` with status `cancelled`, breaking the
claimed iff. -/
theorem assigned_iff_active_cex :
    ordersInv exStC4 ∧ ¬ ordersInv (cancel_order exStC4 1).2 := by decide

/-- C5 (amended): the claim operation's status change is monotonic —
it only ever moves an order from `open` to `accepted` — but
`_complete_order` and `_cancel_order` write their target status
whatever the current status (even from `completed` or `cancelled`),
and `_update_order` applies any requested valid status. -/
theorem status_monotonic (st : ServerState) (order_id : Nat)
    (cleaner_id : Option Nat) (code : Option String) (now : Int) :
    (∀ oid,
       (alookup oid (verify_accept_order st order_id cleaner_id code now).2.orders).map
           OrderRow.status =
         (alookup oid st.orders).map OrderRow.status ∨
       ((alookup oid st.orders).map OrderRow.status = some "open" ∧
        (alookup oid (verify_accept_order st order_id cleaner_id code now).2.orders).map
            OrderRow.status = some "accepted")) ∧
    (∀ (st' : ServerState) (oid : Nat) (r : OrderRow),
       alookup oid st'.orders = some r →
       alookup oid (complete_order st' oid).2.orders =
         some { r with status := "completed" }) ∧
    (∀ (st' : ServerState) (oid : Nat) (r : OrderRow),
       alookup oid st'.orders = some r →
       alookup oid (cancel_order st' oid).2.orders =
         some { r with status := "cancelled" }) := by
  refine ⟨?_, ?_, ?_⟩
  · intro oid
    cases htn : truthyN cleaner_id with
    | none => left; simp [verify_accept_order, htn]
    | some cid =>
    cases hts : truthyS code with
    | none => left; simp [verify_accept_order, htn, hts]
    | some cd =>
    cases hcl : alookup cid st.cleaners with
    | none => left; simp [verify_accept_order, htn, hts, hcl]
    | some stored =>
    by_cases h1 : stored ≠ cd
    · left; simp [verify_accept_order, htn, hts, hcl, h1]
    · by_cases hmem : order_id ∈ st.order_locks
      · left; simp [verify_accept_order, htn, hts, hcl, h1, hmem]
      · cases hrow : alookup order_id st.orders with
        | none => left; simp [verify_accept_order, htn, hts, hcl, h1, hmem, hrow]
        | some row =>
        by_cases h3 : row.status ≠ "open"
        · left; simp [verify_accept_order, htn, hts, hcl, h1, hmem, hrow, h3]
        · have hopen : row.status = "open" := not_not.mp h3
          have horders :
              (verify_accept_order st order_id cleaner_id code now).2.orders =
                aupdate order_id
                  (fun r =>
                    if r.status = "open" then
                      { r with assigned_cleaner_id := some cid,
                               status := "accepted",
                               assigned_at := some now }
                    else r) st.orders := by
            simp [verify_accept_order, htn, hts, hcl, h1, hmem, hrow, h3,
                  alookup_aupdate_self, hopen]
          rw [horders]
          by_cases hoid : oid = order_id
          · subst hoid
            right
            rw [alookup_aupdate_self, hrow]
            simp [hopen]
          · left
            rw [alookup_aupdate_ne _ _ _ _ hoid]
  · intro st' oid r hr
    simp [complete_order, alookup_aupdate_self, hr]
  · intro st' oid r hr
    simp [cancel_order, alookup_aupdate_self, hr]

def exStW5 : ServerState :=
  { orders := [(1, exRow "open" none)], order_locks := [], cleaners := [],
    properties := [], cache := ⟨[], 30⟩, idem := [], next_order_id := 2 }

theorem status_monotonic_witness :
    alookup 1 (complete_order exStW5 1).2.orders =
      some { exRow "open" none with status := "completed" } :=
  (status_monotonic exStW5 1 none none 0).2.1 exStW5 1 (exRow "open" none)
    (by decide)

def exStC5 : ServerState :=
  { orders := [(1, exRow "cancelled" none)], order_locks := [], cleaners := [],
    properties := [], cache := ⟨[], 30⟩, idem := [], next_order_id := 2 }

/-- C5 as stated is false: `_complete_order` moves an order whose
status is the terminal `cancelled` to `completed`. -/
theorem status_monotonic_cex :
    (alookup 1 exStC5.orders).map OrderRow.status = some "cancelled" ∧
    (alookup 1 (complete_order exStC5 1).2.orders).map OrderRow.status =
      some "completed" := by decide

theorem update_order_write_cache (st : ServerState) (oid : Nat) (d : UpdateData)
    (h : (update_order.update_order_write st oid d).2.orders ≠ st.orders) :
    (update_order.update_order_write st oid d).2.cache.entries = [] := by
  by_cases hu : hasUpdates d = true
  · simp [update_order.update_order_write, hu, Cache.clear]
  · exact absurd (by simp [update_order.update_order_write, hu]) h

theorem update_order_apply_cases (st : ServerState) (oid : Nat) (d : UpdateData) :
    update_order.update_order_apply st oid d =
        update_order.update_order_write st oid d ∨
      update_order.update_order_apply st oid d =
        (.err "Price must be greater than 0" 400, st) := by
  unfold update_order.update_order_apply
  cases htp : truthyI d.price with
  | none => exact Or.inl rfl
  | some p =>
      by_cases hp : p ≤ 0
      · simp [hp]
      · simp [hp]

theorem update_order_cases (st : ServerState) (oid : Nat) (d : UpdateData) :
    update_order st oid d = update_order.update_order_apply st oid d ∨
      update_order st oid d =
        (.err "Invalid status. Must be one of: open, accepted, arrived, completed, cancelled"
          400, st) := by
  unfold update_order
  cases hts : truthyS d.status with
  | none => exact Or.inl rfl
  | some s =>
      by_cases hv : s ∈ valid_statuses
      · simp [hv]
      · simp [hv]

/-- C7 (amended): order creation, claim acceptance, and order update
clear the Read Cache before returning success; order completion,
cancellation, and deletion leave the cache untouched, so a cached
stats read can be stale after those writes. -/
theorem cache_invalidation (st : ServerState) :
    (∀ d now, (create_order st d now).1 = .ok "Order created" →
       (create_order st d now).2.cache.entries = []) ∧
    (∀ oid c k now,
       (verify_accept_order st oid c k now).1 = .ok "Order accepted" →
       (verify_accept_order st oid c k now).2.cache.entries = []) ∧
    (∀ oid d, (update_order st oid d).2.orders ≠ st.orders →
       (update_order st oid d).2.cache.entries = []) ∧
    (∀ oid, (complete_order st oid).2.cache = st.cache) ∧
    (∀ oid, (cancel_order st oid).2.cache = st.cache) ∧
    (∀ oid, (delete_order st oid).2.cache = st.cache) := by
  refine ⟨?_, ?_, ?_, fun _ => rfl, fun _ => rfl, fun _ => rfl⟩
  · intro d now h
    cases hv : validate_order d with
    | some e => simp [create_order, hv] at h
    | none =>
    cases hkk : truthyS d.idempotency_key with
    | some k =>
        by_cases hc : (idemCheck st.idem k now).1 = true
        · cases hpd : d.property_id with
          | none => simp [create_order, hv, hkk, hc, hpd] at h
          | some p =>
              by_cases hmem : p ∈ st.properties
              · simp [create_order, hv, hkk, hc, hpd, hmem, Cache.clear]
              · simp [create_order, hv, hkk, hc, hpd, hmem] at h
        · simp [create_order, hv, hkk, hc] at h
    | none =>
        cases hpd : d.property_id with
        | none => simp [create_order, hv, hkk, hpd] at h
        | some p =>
            by_cases hmem : p ∈ st.properties
            · simp [create_order, hv, hkk, hpd, hmem, Cache.clear]
            · simp [create_order, hv, hkk, hpd, hmem] at h
  · intro oid c k now h
    cases htn : truthyN c with
    | none => simp [verify_accept_order, htn] at h
    | some cid =>
    cases hts : truthyS k with
    | none => simp [verify_accept_order, htn, hts] at h
    | some cd =>
    cases hcl : alookup cid st.cleaners with
    | none => simp [verify_accept_order, htn, hts, hcl] at h
    | some stored =>
    by_cases h1 : stored ≠ cd
    · simp [verify_accept_order, htn, hts, hcl, h1] at h
    · by_cases hmem : oid ∈ st.order_locks
      · simp [verify_accept_order, htn, hts, hcl, h1, hmem] at h
      · cases hrow : alookup oid st.orders with
        | none => simp [verify_accept_order, htn, hts, hcl, h1, hmem, hrow] at h
        | some row =>
        by_cases h3 : row.status ≠ "open"
        · simp [verify_accept_order, htn, hts, hcl, h1, hmem, hrow, h3] at h
        · have hopen : row.status = "open" := not_not.mp h3
          simp [verify_accept_order, htn, hts, hcl, h1, hmem, hrow, h3,
                alookup_aupdate_self, hopen, Cache.clear]
  · intro oid d h
    rcases update_order_cases st oid d with he | he
    · rw [he] at h ⊢
      rcases update_order_apply_cases st oid d with ha | ha
      · rw [ha] at h ⊢
        exact update_order_write_cache st oid d h
      · rw [ha] at h
        exact absurd rfl h
    · rw [he] at h
      exact absurd rfl h

def exStC7 : ServerState :=
  { orders := [(1, exRow "accepted" (some 5))], order_locks := [],
    cleaners := [], properties := [],
    cache := ⟨[("stats", (⟨1, 1, 1, 1⟩, 0))], 30⟩, idem := [],
    next_order_id := 2 }

/-- C7 as stated is false: `_complete_order` changes the orders table
but performs no cache invalidation, leaving a non-empty cache whose
stats entry no longer reflects the store. -/
theorem cache_invalidation_cex :
    (complete_order exStC7 1).2.orders ≠ exStC7.orders ∧
    (complete_order exStC7 1).2.cache = exStC7.cache ∧
    exStC7.cache.entries ≠ [] := by decide

def exStW7 : ServerState :=
  { orders := [(1, exRow "accepted" (some 5))], order_locks := [],
    cleaners := [], properties := [],
    cache := ⟨[("stats", (⟨1, 1, 1, 1⟩, 0))], 30⟩, idem := [],
    next_order_id := 2 }

theorem cache_invalidation_witness :
    (update_order exStW7 1
        { property_id := none, checkout_time := none, price := none,
          status := some "arrived", cleaner_id := none, voice_url := none,
          text_notes := none, completion_photos := none,
          accepted_by_host := none }).2.cache.entries = [] :=
  (cache_invalidation exStW7).2.2.1 1
    { property_id := none, checkout_time := none, price := none,
      status := some "arrived", cleaner_id := none, voice_url := none,
      text_notes := none, completion_photos := none,
      accepted_by_host := none } (by decide)

end CleaningService
